import Mathlib

/-!
Shallow embedding of the IMPaCS impact-mixing engine (`impacts.py`).

Numbers are modelled as rationals.  Python `int()` is truncation toward
zero, Python `round(x, n)` and numpy `np.round(x, n)` round half to even
at `n` decimal places.  A cell column is a `List ℚ`; the cell state store
is a partial map from cell identifiers to columns.  The great-circle
`distance` function is transcendental, so store-level operations that
consume it (`find_the_grid`, `update`) are parametrised by the distance
function; every claim about them holds for an arbitrary distance.
-/

namespace Impacts

/-- Truncation toward zero: the behaviour of Python `int()` on a number. -/
def pyTrunc (q : ℚ) : ℤ := if 0 ≤ q then ⌊q⌋ else -⌊-q⌋

/-- Round to the nearest integer, ties to the even integer: the rounding
mode of Python `round` and numpy `np.round`. -/
def roundHalfEven (q : ℚ) : ℤ :=
  if Int.fract q < 1/2 then ⌊q⌋
  else if 1/2 < Int.fract q then ⌊q⌋ + 1
  else if 2 ∣ ⌊q⌋ then ⌊q⌋ else ⌊q⌋ + 1

/-- Python `round(x, 2)`. -/
def pyRound2 (q : ℚ) : ℚ := (roundHalfEven (100 * q) : ℚ) / 100

/-- numpy `np.round(x, 1)`, used on every disturbed layer at the end of
`state_dynamics`. -/
def round1 (q : ℚ) : ℚ := (roundHalfEven (10 * q) : ℚ) / 10

/-- Python `round(x, 4)`, used to build grid-cell identifiers. -/
def round4 (q : ℚ) : ℚ := (roundHalfEven (10000 * q) : ℚ) / 10000

/-- The configuration fields of `IMPAaCS.__init__` that feed the state
dynamics (grid and bookkeeping fields are modelled separately). -/
structure Config where
  primitive_initial_state : ℚ
  max_depth_of_impact_melt : ℚ
  fraction_upper_layer : ℚ
  target_SiO2 : ℚ
  upper_SiO2 : ℚ
  z_discretized_km : ℚ
  proportion_melt_from_impact : ℚ
deriving DecidableEq

/-- The constructor defaults of `IMPAaCS.__init__`. -/
def defaultConfig : Config where
  primitive_initial_state := 45
  max_depth_of_impact_melt := 330
  fraction_upper_layer := 2/3
  target_SiO2 := 6258/100
  upper_SiO2 := 6871/100
  z_discretized_km := 2
  proportion_melt_from_impact := 1/3

/-- `self.fraction_lower_layer = 1 - self.fraction_upper_layer` (line 66). -/
def Config.fraction_lower_layer (cfg : Config) : ℚ := 1 - cfg.fraction_upper_layer

/-- `fractionation_factor = 1 - (self.target_SiO2 / self.upper_SiO2)` (line 130). -/
def Config.fractionation_factor (cfg : Config) : ℚ := 1 - cfg.target_SiO2 / cfg.upper_SiO2

/-- `total_layers = int(self.max_depth_of_impact_melt / self.z_discretized_km)`
(line 154): the fixed length of every cell column. -/
def Config.total_layers (cfg : Config) : ℕ :=
  (pyTrunc (cfg.max_depth_of_impact_melt / cfg.z_discretized_km)).toNat

/-- A grid-cell identifier: the pair of coordinates rounded to 4 decimals,
modelling the string key `str(round(lon,4)) + ' ' + str(round(lat,4))`. -/
abbrev CellId : Type := ℚ × ℚ

/-- Key construction for a cell `[ilon, ilat]` (lines 157, 164, 204). -/
def grid_cell_id (c : ℚ × ℚ) : CellId := (round4 c.1, round4 c.2)

/-- The cell state store `self.grid_cell_state`: a partial map from cell
identifiers to columns. -/
abbrev Store : Type := CellId → Option (List ℚ)

/-- `state_prep` (lines 153-158): every cell of the working grid gets a
column of `total_layers` copies of the primitive value. -/
def state_prep (cfg : Config) (lons lats : List ℚ) : Store := fun id =>
  if (∃ lon ∈ lons, round4 lon = id.1) ∧ (∃ lat ∈ lats, round4 lat = id.2) then
    some (List.replicate cfg.total_layers cfg.primitive_initial_state)
  else none

/-- `melt_layers = int(depth_of_impact_melt / self.z_discretized_km)` with
`depth_of_impact_melt = impactor_diameter * self.proportion_melt_from_impact`
(lines 120-123). -/
def melt_layers (cfg : Config) (d : ℚ) : ℕ :=
  (pyTrunc (d * cfg.proportion_melt_from_impact / cfg.z_discretized_km)).toNat

/-- The partition index `int(round(self.fraction_upper_layer * melt_layers, 2))`
shared by the `upper_layer` and `lower_layer` ranges (lines 125-126). -/
def upperCount (cfg : Config) (d : ℚ) : ℕ :=
  (pyTrunc (pyRound2 (cfg.fraction_upper_layer * (melt_layers cfg d : ℚ)))).toNat

/-- Python `range(a, b)` over naturals. -/
def pyRangeN (a b : ℕ) : List ℕ := (List.range (b - a)).map (fun k => a + k)

/-- A Python loop `for i in idxs: col[i] = v`. -/
def setRange (col : List ℚ) (idxs : List ℕ) (v : ℚ) : List ℚ :=
  idxs.foldl (fun c i => c.set i v) col

/-- The final loop of `state_dynamics` (lines 149-150):
`for i in range(melt_layers): col[i] = np.round(col[i], 1)`. -/
def roundRange (col : List ℚ) (m : ℕ) : List ℚ :=
  (List.range m).foldl (fun c i => c.set i (round1 (c.getD i 0))) col

/-- `state_dynamics` (lines 112-150) acting on one cell column: set the
lower range to the primitive state, set the upper range to
`average_target / (1 - fractionation_factor)`, read `wt_sio2_upper` from
layer 0, overwrite the lower range with the mass-balance value, and round
every disturbed layer to one decimal. -/
def state_dynamics (cfg : Config) (average_target d : ℚ) (col : List ℚ) : List ℚ :=
  let m := melt_layers cfg d
  let b := upperCount cfg d
  let col1 := setRange col (pyRangeN b m) cfg.primitive_initial_state
  let col2 := setRange col1 (pyRangeN 0 b)
      (average_target / (1 - cfg.fractionation_factor))
  let wt := col2.getD 0 0
  let col3 := setRange col2 (pyRangeN b m)
      ((average_target - cfg.fraction_upper_layer * wt) / cfg.fraction_lower_layer)
  roundRange col3 m

/-- One store write of `state_dynamics` at a given key, as performed inside
`loop_impact_grid`. -/
def apply_state_dynamics (cfg : Config) (avg d : ℚ) (st : Store) (id : CellId) : Store :=
  fun i => if i = id then (st id).map (state_dynamics cfg avg d) else st i

/-- `loop_impact_grid` (lines 202-209): run `state_dynamics` on every
impacted cell in order (the test-cell bookkeeping does not touch the store). -/
def loop_impact_grid (cfg : Config) (avg d : ℚ) (st : Store)
    (cells : List (ℚ × ℚ)) : Store :=
  cells.foldl (fun s c => apply_state_dynamics cfg avg d s (grid_cell_id c)) st

/-- One summand of `get_average_target` (lines 163-169): the sum of the top
`z` layers of the cell's column, or `primitive * z` if the key is absent. -/
def cell_target_sum (cfg : Config) (st : Store) (z : ℕ) (c : ℚ × ℚ) : ℚ :=
  match st (grid_cell_id c) with
  | some col => (col.take z).foldl (fun a x => a + x) 0
  | none => cfg.primitive_initial_state * (z : ℚ)

/-- `get_average_target` (lines 161-170): accumulate the per-cell sums and
divide by `len(impacted_grid_cells) * z_layers`. -/
def get_average_target (cfg : Config) (st : Store) (z : ℕ)
    (cells : List (ℚ × ℚ)) : ℚ :=
  (cells.foldl (fun acc c => acc + cell_target_sum cfg st z c) 0)
    / ((cells.length : ℚ) * (z : ℚ))

/-- `self.crator_radius = (10 * impactor_diameter) / 2` (lines 213-214). -/
def crator_radius (d : ℚ) : ℚ := 10 * d / 2

/-- `self.z_layers = int(np.ceil(impactor_diameter / self.z_discretized_km))`
(line 215). -/
def z_layers (cfg : Config) (d : ℚ) : ℕ := (Int.ceil (d / cfg.z_discretized_km)).toNat

/-- The distance from the impact location to the cell `[ilon, ilat]`:
`distance(impact_loc[0], ilat, impact_loc[1], ilon)` (line 178), for an
arbitrary distance function `dist lat1 lat2 lon1 lon2`. -/
def distance_to (dist : ℚ → ℚ → ℚ → ℚ → ℚ) (loc c : ℚ × ℚ) : ℚ :=
  dist loc.1 c.2 loc.2 c.1

/-- The traversal order of the working grid: `for ilon in lon_subset: for
ilat in lat_subset`, cells recorded as `[ilon, ilat]`. -/
def all_cells (lons lats : List ℚ) : List (ℚ × ℚ) :=
  lons.flatMap (fun lon => lats.map (fun lat => (lon, lat)))

/-- The running minimum `Dmin` of `find_the_grid`, initialised to
`10000000` (lines 175-180). -/
def d_min (dist : ℚ → ℚ → ℚ → ℚ → ℚ) (loc : ℚ × ℚ) (cells : List (ℚ × ℚ)) : ℚ :=
  cells.foldl (fun dm c => if distance_to dist loc c < dm then distance_to dist loc c else dm)
    10000000

/-- `find_the_grid` (lines 173-199): collect every cell within the crater
radius; if none and the minimum distance is below 30 km, collect every cell
exactly at the minimum distance; otherwise no cell. -/
def find_the_grid (dist : ℚ → ℚ → ℚ → ℚ → ℚ) (lons lats : List ℚ)
    (loc : ℚ × ℚ) (r : ℚ) : List (ℚ × ℚ) :=
  let cells := all_cells lons lats
  let hit := cells.filter (fun c => decide (distance_to dist loc c ≤ r))
  if hit.length < 1 then
    if d_min dist loc cells < 30 then
      cells.filter (fun c => decide (distance_to dist loc c = d_min dist loc cells))
    else []
  else hit

/-- `update` (lines 101-107) restricted to its store effect: compute the
crater dimensions, locate the footprint, and if it is non-empty compute the
average target from the pre-impact store and mix every footprint cell. -/
def update (dist : ℚ → ℚ → ℚ → ℚ → ℚ) (cfg : Config) (lons lats : List ℚ)
    (st : Store) (loc : ℚ × ℚ) (d : ℚ) : Store :=
  let cells := find_the_grid dist lons lats loc (crator_radius d)
  if 0 < cells.length then
    loop_impact_grid cfg (get_average_target cfg st (z_layers cfg d) cells) d st cells
  else st

/-- A finite sequence of impact events `(location, diameter)` applied in
order by the external driver. -/
def run_impacts (dist : ℚ → ℚ → ℚ → ℚ → ℚ) (cfg : Config) (lons lats : List ℚ)
    (events : List ((ℚ × ℚ) × ℚ)) (st : Store) : Store :=
  events.foldl (fun s e => update dist cfg lons lats s e.1 e.2) st

/-- Python `range(s_min, s_max, ds)` over integers, for a positive step. -/
def pyRangeZ (a b ds : ℤ) : List ℤ :=
  (List.range ((b - a + ds - 1) / ds).toNat).map (fun n => a + ds * n)

/-- The loop body of `re_bin_sio2` (lines 232-238): return the first bin
`s` with `temp_state <= s`; on any iteration where `temp_state >= s_max`,
return `s_max`; if the loop ends without returning, the Python function
returns `None`. -/
def re_bin_loop (t : ℚ) (smax : ℤ) : List ℤ → Option ℤ
  | [] => none
  | s :: rest =>
      if t ≤ (s : ℚ) then some s
      else if (smax : ℚ) ≤ t then some smax
      else re_bin_loop t smax rest

/-- `re_bin_sio2` (lines 228-238) with its parameters
`s_min=1, s_max=100, ds=1`. -/
def re_bin_sio2 (t : ℚ) (s_min s_max ds : ℤ) : Option ℤ :=
  re_bin_loop t s_max (pyRangeZ s_min s_max ds)

/-- `np.mean(col[0:2])`: the mean of the top two layers of a column. -/
def mean_top2 (col : List ℚ) : ℚ :=
  ((col.take 2).foldl (fun a x => a + x) 0) / (((col.take 2).length : ℕ) : ℚ)

/-- The `bar_list` of `do_sample_percents` (lines 312-323): for every cell
of the working grid, rebin the mean of its top two layers, keeping only the
defined results (the `None` filter; rationals have no NaN, so the `isnan`
skip drops nothing in this model). -/
def sample_bar_list (st : Store) (lons lats : List ℚ) : List ℤ :=
  (all_cells lons lats).filterMap (fun c =>
    match st (grid_cell_id c) with
    | some col => re_bin_sio2 (mean_top2 col) 1 100 1
    | none => none)

/-- `do_sample_percents` (lines 300-329): one entry per distinct bin value,
mapping it to `100 * count / len(bar_list)` (`np.unique` also sorts the
bins; the ordering of the entries is irrelevant to the mapping). -/
def do_sample_percents (st : Store) (lons lats : List ℚ) : List (ℤ × ℚ) :=
  (sample_bar_list st lons lats).dedup.map (fun u =>
    (u, 100 * ((sample_bar_list st lons lats).count u : ℚ)
          / ((sample_bar_list st lons lats).length : ℚ)))

/-! ### Basic lemmas about the rounding helpers -/

theorem roundHalfEven_intCast (n : ℤ) : roundHalfEven (n : ℚ) = n := by
  unfold roundHalfEven
  rw [Int.fract_intCast, Int.floor_intCast]
  norm_num

theorem roundHalfEven_int_add_lt_half (n : ℤ) {x : ℚ} (h0 : 0 ≤ x) (h : x < 1/2) :
    roundHalfEven ((n : ℚ) + x) = n := by
  have hfl : ⌊x⌋ = 0 := Int.floor_eq_iff.mpr ⟨by exact_mod_cast h0, by push_cast; linarith⟩
  unfold roundHalfEven
  rw [Int.fract_int_add, Int.floor_int_add, Int.fract_eq_self.mpr ⟨h0, by linarith⟩, hfl,
    if_pos h]
  omega

theorem roundHalfEven_int_add_half_lt (n : ℤ) {x : ℚ} (h : 1/2 < x) (h1 : x < 1) :
    roundHalfEven ((n : ℚ) + x) = n + 1 := by
  have hfl : ⌊x⌋ = 0 := Int.floor_eq_iff.mpr ⟨by push_cast; linarith, by push_cast; linarith⟩
  unfold roundHalfEven
  rw [Int.fract_int_add, Int.floor_int_add, Int.fract_eq_self.mpr ⟨by linarith, h1⟩, hfl,
    if_neg (by linarith), if_pos h]
  omega

theorem floor_le_roundHalfEven (q : ℚ) : ⌊q⌋ ≤ roundHalfEven q := by
  unfold roundHalfEven
  split_ifs <;> omega

theorem roundHalfEven_le_ceil (q : ℚ) : roundHalfEven q ≤ ⌈q⌉ := by
  have hfc : Int.fract q ≠ 0 → ⌊q⌋ + 1 ≤ ⌈q⌉ := by
    intro hf
    have h1 : (⌊q⌋ : ℚ) < q := by
      have hnn := Int.fract_nonneg q
      have hpos : 0 < Int.fract q := lt_of_le_of_ne hnn (Ne.symm hf)
      have hq := Int.floor_add_fract q
      linarith
    have h2 : (⌊q⌋ : ℚ) < (⌈q⌉ : ℚ) := lt_of_lt_of_le h1 (Int.le_ceil q)
    exact_mod_cast h2
  unfold roundHalfEven
  split_ifs with ha hb hc
  · exact Int.floor_le_ceil q
  · exact hfc (by intro h; rw [h] at hb; norm_num at hb)
  · exact Int.floor_le_ceil q
  · exact hfc (by intro h; rw [h] at ha; norm_num at ha)

theorem pyTrunc_of_nonneg {q : ℚ} (h : 0 ≤ q) : pyTrunc q = ⌊q⌋ := if_pos h

theorem pyTrunc_natCast (n : ℕ) : pyTrunc (n : ℚ) = n := by
  rw [pyTrunc_of_nonneg (by positivity), Int.floor_natCast]

theorem roundHalfEven_eq_of_lt_half {q : ℚ} {n : ℤ} (h0 : (n : ℚ) ≤ q)
    (h : q < (n : ℚ) + 1/2) : roundHalfEven q = n := by
  have h2 := @roundHalfEven_int_add_lt_half n (q - n) (by linarith) (by linarith)
  rwa [show (n : ℚ) + (q - (n : ℚ)) = q by ring] at h2

theorem roundHalfEven_eq_of_half_lt {q : ℚ} {n : ℤ} (h0 : (n : ℚ) + 1/2 < q)
    (h : q < (n : ℚ) + 1) : roundHalfEven q = n + 1 := by
  have h2 := @roundHalfEven_int_add_half_lt n (q - n) (by linarith) (by linarith)
  rwa [show (n : ℚ) + (q - (n : ℚ)) = q by ring] at h2

theorem round1_eval_lt {q : ℚ} {n : ℤ} (h0 : (n : ℚ) ≤ 10 * q)
    (h : 10 * q < (n : ℚ) + 1/2) : round1 q = (n : ℚ) / 10 := by
  unfold round1
  rw [roundHalfEven_eq_of_lt_half h0 h]

theorem round1_eval_gt {q : ℚ} {n : ℤ} (h0 : (n : ℚ) + 1/2 < 10 * q)
    (h : 10 * q < (n : ℚ) + 1) : round1 q = ((n : ℚ) + 1) / 10 := by
  unfold round1
  rw [roundHalfEven_eq_of_half_lt h0 h]
  push_cast
  ring

theorem round4_intCast (n : ℤ) : round4 ((n : ℤ) : ℚ) = (n : ℚ) := by
  unfold round4
  rw [show (10000 : ℚ) * ((n : ℤ) : ℚ) = (((10000 * n : ℤ)) : ℚ) by push_cast; ring,
    roundHalfEven_intCast, show (((10000 * n : ℤ)) : ℚ) = 10000 * (n : ℚ) by push_cast; ring,
    mul_div_cancel_left₀ _ (by norm_num : (10000 : ℚ) ≠ 0)]

theorem round4_zero : round4 0 = 0 := by
  rw [show (0 : ℚ) = ((0 : ℤ) : ℚ) by norm_num, round4_intCast]

theorem round4_one : round4 1 = 1 := by
  rw [show (1 : ℚ) = ((1 : ℤ) : ℚ) by norm_num, round4_intCast]

/-! ### Projection values of the concrete configurations -/

theorem defaultConfig_prim : defaultConfig.primitive_initial_state = 45 := rfl

theorem defaultConfig_maxd : defaultConfig.max_depth_of_impact_melt = 330 := rfl

theorem defaultConfig_uf : defaultConfig.fraction_upper_layer = 2/3 := rfl

theorem defaultConfig_target : defaultConfig.target_SiO2 = 6258/100 := rfl

theorem defaultConfig_upper : defaultConfig.upper_SiO2 = 6871/100 := rfl

theorem defaultConfig_zkm : defaultConfig.z_discretized_km = 2 := rfl

theorem defaultConfig_prop : defaultConfig.proportion_melt_from_impact = 1/3 := rfl

/-! ### Evaluation lemmas for the derived quantities -/

theorem melt_layers_eval (cfg : Config) (d : ℚ) (n : ℕ)
    (h : d * cfg.proportion_melt_from_impact / cfg.z_discretized_km = (n : ℚ)) :
    melt_layers cfg d = n := by
  unfold melt_layers
  rw [h, pyTrunc_natCast, Int.toNat_natCast]

theorem z_layers_eval (cfg : Config) (d : ℚ) (n : ℕ)
    (h : d / cfg.z_discretized_km = (n : ℚ)) : z_layers cfg d = n := by
  unfold z_layers
  rw [h, show ((n : ℕ) : ℚ) = ((n : ℤ) : ℚ) by push_cast; ring, Int.ceil_intCast,
    Int.toNat_natCast]

theorem total_layers_eval (cfg : Config) (n : ℕ)
    (h : cfg.max_depth_of_impact_melt / cfg.z_discretized_km = (n : ℚ)) :
    cfg.total_layers = n := by
  unfold Config.total_layers
  rw [h, pyTrunc_natCast, Int.toNat_natCast]

/-- The partition index under the default partition ratio `2/3` is the floor
`2 * melt_layers / 3`, not the nearest integer. -/
theorem trunc_round2_two_thirds (m : ℕ) :
    (pyTrunc (pyRound2 ((2/3 : ℚ) * (m : ℚ)))).toNat = 2 * m / 3 := by
  obtain ⟨q, r, hr, rfl⟩ : ∃ q r, r < 3 ∧ m = 3 * q + r :=
    ⟨m / 3, m % 3, Nat.mod_lt _ (by norm_num), (Nat.div_add_mod m 3).symm⟩
  interval_cases r
  · rw [show (2/3 : ℚ) * (((3 * q + 0 : ℕ)) : ℚ) = (((2 * q : ℕ)) : ℚ) by push_cast; ring]
    unfold pyRound2
    rw [show (100 : ℚ) * (((2 * q : ℕ)) : ℚ) = (((200 * q : ℕ) : ℤ) : ℚ) by push_cast; ring,
      roundHalfEven_intCast,
      show ((((200 * q : ℕ) : ℤ) : ℚ)) / 100 = (((2 * q : ℕ)) : ℚ) by push_cast; ring,
      pyTrunc_natCast, Int.toNat_natCast]
    omega
  · unfold pyRound2
    rw [show (100 : ℚ) * ((2/3 : ℚ) * (((3 * q + 1 : ℕ)) : ℚ)) =
        (((200 * q + 66 : ℕ) : ℤ) : ℚ) + (2/3 : ℚ) by push_cast; ring,
      @roundHalfEven_int_add_half_lt ((200 * q + 66 : ℕ) : ℤ) (2/3) (by norm_num) (by norm_num),
      show ((((200 * q + 66 : ℕ) : ℤ) + 1 : ℤ) : ℚ) / 100 = (((2 * q : ℕ) : ℤ) : ℚ) + 67/100
        by push_cast; ring,
      pyTrunc_of_nonneg (by positivity), Int.floor_int_add,
      show ⌊(67/100 : ℚ)⌋ = 0 by norm_num]
    omega
  · unfold pyRound2
    rw [show (100 : ℚ) * ((2/3 : ℚ) * (((3 * q + 2 : ℕ)) : ℚ)) =
        (((200 * q + 133 : ℕ) : ℤ) : ℚ) + (1/3 : ℚ) by push_cast; ring,
      @roundHalfEven_int_add_lt_half ((200 * q + 133 : ℕ) : ℤ) (1/3) (by norm_num) (by norm_num),
      show (((((200 * q + 133 : ℕ) : ℤ)) : ℚ)) / 100 = (((2 * q + 1 : ℕ) : ℤ) : ℚ) + 33/100
        by push_cast; ring,
      pyTrunc_of_nonneg (by positivity), Int.floor_int_add,
      show ⌊(33/100 : ℚ)⌋ = 0 by norm_num]
    omega

theorem upperCount_defaultConfig (d : ℚ) :
    upperCount defaultConfig d = 2 * melt_layers defaultConfig d / 3 :=
  trunc_round2_two_thirds (melt_layers defaultConfig d)

theorem upperCount_of_uf_one (cfg : Config) (d : ℚ) (h1 : cfg.fraction_upper_layer = 1) :
    upperCount cfg d = melt_layers cfg d := by
  unfold upperCount pyRound2
  rw [h1, one_mul,
    show (100 : ℚ) * ((melt_layers cfg d : ℕ) : ℚ) =
      (((100 * melt_layers cfg d : ℕ) : ℤ) : ℚ) by push_cast; ring,
    roundHalfEven_intCast,
    show ((((100 * melt_layers cfg d : ℕ) : ℤ) : ℚ)) / 100 =
      ((melt_layers cfg d : ℕ) : ℚ) by push_cast; ring,
    pyTrunc_natCast, Int.toNat_natCast]

/-! ### Lemmas about `pyRangeN`, `setRange` and `roundRange` -/

theorem mem_pyRangeN {a b i : ℕ} : i ∈ pyRangeN a b ↔ a ≤ i ∧ i < b := by
  simp only [pyRangeN, List.mem_map, List.mem_range]
  constructor
  · rintro ⟨k, hk, rfl⟩; omega
  · rintro ⟨h1, h2⟩; exact ⟨i - a, by omega, by omega⟩

theorem setRange_cons (col : List ℚ) (j : ℕ) (r : List ℕ) (v : ℚ) :
    setRange col (j :: r) v = setRange (col.set j v) r v := rfl

theorem setRange_length (idxs : List ℕ) (col : List ℚ) (v : ℚ) :
    (setRange col idxs v).length = col.length := by
  induction idxs generalizing col with
  | nil => rfl
  | cons j r ih => rw [setRange_cons, ih, List.length_set]

theorem setRange_getElem? (idxs : List ℕ) (col : List ℚ) (v : ℚ) (i : ℕ) :
    (setRange col idxs v)[i]? =
      if i ∈ idxs ∧ i < col.length then some v else col[i]? := by
  induction idxs generalizing col with
  | nil => simp [setRange]
  | cons j r ih =>
    rw [setRange_cons, ih, List.length_set, List.getElem?_set]
    by_cases h1 : i ∈ r ∧ i < col.length
    · simp [h1, List.mem_cons, h1.1, h1.2]
    · by_cases h2 : j = i
      · subst h2
        by_cases h3 : j < col.length
        · simp [h1, h3, List.mem_cons]
        · have hnone : col[j]? = none := List.getElem?_eq_none (by omega)
          simp [h1, h3, hnone, List.mem_cons]
      · have hiff : (i ∈ j :: r ∧ i < col.length) ↔ (i ∈ r ∧ i < col.length) := by
          simp only [List.mem_cons]
          constructor
          · rintro ⟨h | h, hl⟩
            · exact absurd h.symm h2
            · exact ⟨h, hl⟩
          · rintro ⟨h, hl⟩; exact ⟨Or.inr h, hl⟩
        rw [if_neg h1, if_neg h2, if_neg (fun hcon => h1 (hiff.mp hcon))]

theorem roundRange_succ (col : List ℚ) (m : ℕ) :
    roundRange col (m + 1) =
      (roundRange col m).set m (round1 ((roundRange col m).getD m 0)) := by
  unfold roundRange
  rw [List.range_succ, List.foldl_append]
  rfl

theorem roundRange_length (col : List ℚ) (m : ℕ) :
    (roundRange col m).length = col.length := by
  induction m with
  | zero => rfl
  | succ m ih => rw [roundRange_succ, List.length_set, ih]

theorem roundRange_getElem? (col : List ℚ) (m i : ℕ) :
    (roundRange col m)[i]? =
      if i < m then (col[i]?).map round1 else col[i]? := by
  induction m with
  | zero => simp [roundRange]
  | succ m ih =>
    rw [roundRange_succ, List.getElem?_set, roundRange_length]
    by_cases h2 : m = i
    · subst h2
      by_cases h3 : m < col.length
      · rw [if_pos rfl, if_pos h3, if_pos (Nat.lt_succ_self m), List.getD_eq_getElem?_getD, ih,
          if_neg (lt_irrefl m), List.getElem?_eq_getElem h3]
        rfl
      · rw [if_pos rfl, if_neg h3, if_pos (Nat.lt_succ_self m),
          List.getElem?_eq_none (Nat.le_of_not_lt h3)]
        rfl
    · rw [if_neg h2, ih]
      by_cases h4 : i < m
      · rw [if_pos h4, if_pos (by omega)]
      · rw [if_neg h4, if_neg (by omega)]

/-! ### Characterisation of `state_dynamics` on a column -/

theorem upperCount_le_melt_layers (cfg : Config) (d : ℚ)
    (h0 : 0 ≤ cfg.fraction_upper_layer) (h1 : cfg.fraction_upper_layer ≤ 1) :
    upperCount cfg d ≤ melt_layers cfg d := by
  set m := melt_layers cfg d with hm
  set t : ℚ := 100 * (cfg.fraction_upper_layer * (m : ℚ)) with ht
  have hx0 : 0 ≤ cfg.fraction_upper_layer * (m : ℚ) :=
    mul_nonneg h0 (Nat.cast_nonneg m)
  have hxm : cfg.fraction_upper_layer * (m : ℚ) ≤ (m : ℚ) := by
    nlinarith [Nat.cast_nonneg (α := ℚ) m]
  have hub : roundHalfEven t ≤ (100 * m : ℤ) :=
    le_trans (roundHalfEven_le_ceil t) (Int.ceil_le.mpr (by push_cast; linarith))
  have hlb : (0 : ℤ) ≤ roundHalfEven t :=
    le_trans (Int.floor_nonneg.mpr (by rw [ht]; positivity)) (floor_le_roundHalfEven t)
  have hq : ((roundHalfEven t : ℚ) / 100) ≤ (m : ℚ) := by
    rw [div_le_iff₀ (by norm_num)]
    have : (roundHalfEven t : ℚ) ≤ ((100 * m : ℤ) : ℚ) := by exact_mod_cast hub
    push_cast at this ⊢
    linarith
  have hq0 : (0 : ℚ) ≤ (roundHalfEven t : ℚ) / 100 :=
    div_nonneg (by exact_mod_cast hlb) (by norm_num)
  show (pyTrunc (pyRound2 (cfg.fraction_upper_layer * (m : ℚ)))).toNat ≤ m
  rw [pyRound2, ← ht, pyTrunc_of_nonneg hq0, Int.toNat_le]
  calc ⌊(roundHalfEven t : ℚ) / 100⌋ ≤ ⌊(m : ℚ)⌋ := Int.floor_le_floor hq
  _ = m := Int.floor_natCast m

theorem state_dynamics_eq (cfg : Config) (avg d : ℚ) (col : List ℚ) :
    state_dynamics cfg avg d col = roundRange (setRange (setRange (setRange col
      (pyRangeN (upperCount cfg d) (melt_layers cfg d)) cfg.primitive_initial_state)
      (pyRangeN 0 (upperCount cfg d)) (avg / (1 - cfg.fractionation_factor)))
      (pyRangeN (upperCount cfg d) (melt_layers cfg d))
      ((avg - cfg.fraction_upper_layer * ((setRange (setRange col
        (pyRangeN (upperCount cfg d) (melt_layers cfg d)) cfg.primitive_initial_state)
        (pyRangeN 0 (upperCount cfg d)) (avg / (1 - cfg.fractionation_factor))).getD 0 0))
        / cfg.fraction_lower_layer)) (melt_layers cfg d) := rfl

theorem mix_wt (m b : ℕ) (prim u : ℚ) (col : List ℚ) (hb : 0 < b) (hbl : b ≤ col.length) :
    (setRange (setRange col (pyRangeN b m) prim) (pyRangeN 0 b) u).getD 0 0 = u := by
  rw [List.getD_eq_getElem?_getD, setRange_getElem?,
    if_pos ⟨mem_pyRangeN.mpr ⟨le_refl 0, hb⟩, by rw [setRange_length]; omega⟩]
  rfl

theorem mix_passes_getElem? (m b : ℕ) (prim u w : ℚ) (col : List ℚ)
    (hbm : b ≤ m) (hml : m ≤ col.length) (i : ℕ) :
    (roundRange (setRange (setRange (setRange col (pyRangeN b m) prim)
      (pyRangeN 0 b) u) (pyRangeN b m) w) m)[i]? =
      if i < b then some (round1 u)
      else if i < m then some (round1 w)
      else col[i]? := by
  simp only [roundRange_getElem?, setRange_getElem?, setRange_length, mem_pyRangeN]
  split_ifs <;> first | rfl | (exfalso; omega)

theorem state_dynamics_getElem? (cfg : Config) (avg d : ℚ) (col : List ℚ)
    (hbm : upperCount cfg d ≤ melt_layers cfg d)
    (hb : 0 < upperCount cfg d)
    (hml : melt_layers cfg d ≤ col.length) (i : ℕ) :
    (state_dynamics cfg avg d col)[i]? =
      if i < upperCount cfg d then some (round1 (avg / (1 - cfg.fractionation_factor)))
      else if i < melt_layers cfg d then
        some (round1 ((avg - cfg.fraction_upper_layer * (avg / (1 - cfg.fractionation_factor)))
          / cfg.fraction_lower_layer))
      else col[i]? := by
  rw [state_dynamics_eq,
    mix_wt (melt_layers cfg d) (upperCount cfg d) cfg.primitive_initial_state
      (avg / (1 - cfg.fractionation_factor)) col hb (le_trans hbm hml),
    mix_passes_getElem? (melt_layers cfg d) (upperCount cfg d) cfg.primitive_initial_state
      (avg / (1 - cfg.fractionation_factor)) _ col hbm hml]

theorem state_dynamics_frame_getElem? (cfg : Config) (avg d : ℚ) (col : List ℚ)
    (hbm : upperCount cfg d ≤ melt_layers cfg d) (i : ℕ)
    (him : melt_layers cfg d ≤ i) :
    (state_dynamics cfg avg d col)[i]? = col[i]? := by
  rw [state_dynamics_eq]
  simp only [roundRange_getElem?, setRange_getElem?, setRange_length, mem_pyRangeN]
  split_ifs <;> first | rfl | (exfalso; omega)

theorem state_dynamics_length (cfg : Config) (avg d : ℚ) (col : List ℚ) :
    (state_dynamics cfg avg d col).length = col.length := by
  rw [state_dynamics_eq, roundRange_length, setRange_length, setRange_length, setRange_length]

/-! ### Unfolding equations for branchy store operations -/

theorem find_the_grid_def (dist : ℚ → ℚ → ℚ → ℚ → ℚ) (lons lats : List ℚ)
    (loc : ℚ × ℚ) (r : ℚ) :
    find_the_grid dist lons lats loc r =
      if ((all_cells lons lats).filter
          (fun c => decide (distance_to dist loc c ≤ r))).length < 1 then
        if d_min dist loc (all_cells lons lats) < 30 then
          (all_cells lons lats).filter
            (fun c => decide (distance_to dist loc c = d_min dist loc (all_cells lons lats)))
        else []
      else (all_cells lons lats).filter (fun c => decide (distance_to dist loc c ≤ r)) := rfl

theorem update_def (dist : ℚ → ℚ → ℚ → ℚ → ℚ) (cfg : Config) (lons lats : List ℚ)
    (st : Store) (loc : ℚ × ℚ) (d : ℚ) :
    update dist cfg lons lats st loc d =
      if 0 < (find_the_grid dist lons lats loc (crator_radius d)).length then
        loop_impact_grid cfg
          (get_average_target cfg st (z_layers cfg d)
            (find_the_grid dist lons lats loc (crator_radius d)))
          d st (find_the_grid dist lons lats loc (crator_radius d))
      else st := rfl

theorem loop_impact_grid_frame (cfg : Config) (avg d : ℚ) (cells : List (ℚ × ℚ)) :
    ∀ (st : Store) (id : CellId), id ∉ cells.map grid_cell_id →
      loop_impact_grid cfg avg d st cells id = st id := by
  induction cells with
  | nil => intro st id _; rfl
  | cons c cs ih =>
    intro st id hid
    rw [List.map_cons, List.mem_cons] at hid
    push_neg at hid
    show loop_impact_grid cfg avg d (apply_state_dynamics cfg avg d st (grid_cell_id c)) cs id
      = st id
    rw [ih _ _ hid.2]
    simp [apply_state_dynamics, hid.1]

/-- Claim C1: after `state_dynamics` on a cell column, every layer in the
upper range `[0, upperCount)` holds `average_target / (1 - fractionation_factor)`
with `fractionation_factor = 1 - target_SiO2 / upper_SiO2`, and every layer in
the lower range `[upperCount, melt_layers)` holds the mass-balance value
`(average_target - fraction_upper_layer * upper_value) / (1 - fraction_upper_layer)`
built from the first upper-range value, each rounded to one decimal place.
The hypotheses say that the partition ratio is a fraction, that the upper
range is non-empty (so that its first value exists, as the claim assumes),
and that the disturbed layers fit in the column. -/
theorem layer_mixer_postcondition (cfg : Config) (avg d : ℚ) (col : List ℚ)
    (h0 : 0 ≤ cfg.fraction_upper_layer) (h1 : cfg.fraction_upper_layer ≤ 1)
    (hb : 0 < upperCount cfg d) (hml : melt_layers cfg d ≤ col.length) :
    (∀ i, i < upperCount cfg d →
      (state_dynamics cfg avg d col)[i]? =
        some (round1 (avg / (1 - (1 - cfg.target_SiO2 / cfg.upper_SiO2))))) ∧
    (∀ i, upperCount cfg d ≤ i → i < melt_layers cfg d →
      (state_dynamics cfg avg d col)[i]? =
        some (round1 ((avg - cfg.fraction_upper_layer *
          (avg / (1 - (1 - cfg.target_SiO2 / cfg.upper_SiO2)))) /
          (1 - cfg.fraction_upper_layer)))) := by
  have hbm := upperCount_le_melt_layers cfg d h0 h1
  constructor
  · intro i hi
    rw [state_dynamics_getElem? cfg avg d col hbm hb hml i, if_pos hi]
    rfl
  · intro i hbi him
    rw [state_dynamics_getElem? cfg avg d col hbm hb hml i, if_neg (not_lt.mpr hbi),
      if_pos him]
    rfl

/-- Witness for C1 at the spec's example scenario: diameter 30, primitive
grid, average target 45. -/
theorem layer_mixer_postcondition_witness :
    (0 : ℚ) ≤ defaultConfig.fraction_upper_layer ∧
    defaultConfig.fraction_upper_layer ≤ 1 ∧
    0 < upperCount defaultConfig 30 ∧
    melt_layers defaultConfig 30 ≤ (List.replicate 6 (45 : ℚ)).length ∧
    (state_dynamics defaultConfig 45 30 (List.replicate 6 45))[0]? = some (247/5) ∧
    (state_dynamics defaultConfig 45 30 (List.replicate 6 45))[4]? = some (181/5) := by
  have hm : melt_layers defaultConfig 30 = 5 :=
    melt_layers_eval _ _ 5 (by rw [defaultConfig_prop, defaultConfig_zkm]; push_cast; norm_num)
  have hb : upperCount defaultConfig 30 = 3 := by rw [upperCount_defaultConfig, hm]
  have h := layer_mixer_postcondition defaultConfig 45 30 (List.replicate 6 45)
    (by rw [defaultConfig_uf]; norm_num) (by rw [defaultConfig_uf]; norm_num)
    (by rw [hb]; norm_num) (by rw [hm, List.length_replicate]; norm_num)
  have hu : (45 : ℚ) / (1 - (1 - defaultConfig.target_SiO2 / defaultConfig.upper_SiO2)) =
      103065/2086 := by
    rw [defaultConfig_target, defaultConfig_upper]; norm_num
  refine ⟨by rw [defaultConfig_uf]; norm_num, by rw [defaultConfig_uf]; norm_num,
    by rw [hb]; norm_num, by rw [hm, List.length_replicate]; norm_num, ?_, ?_⟩
  · rw [h.1 0 (by rw [hb]; norm_num), hu,
      @round1_eval_lt (103065/2086) 494 (by norm_num) (by norm_num)]
    norm_num
  · have hw : ((45 : ℚ) - defaultConfig.fraction_upper_layer *
        ((45 : ℚ) / (1 - (1 - defaultConfig.target_SiO2 / defaultConfig.upper_SiO2)))) /
        (1 - defaultConfig.fraction_upper_layer) = 37740/1043 := by
      rw [defaultConfig_uf, defaultConfig_target, defaultConfig_upper]; norm_num
    rw [h.2 4 (by rw [hb]; norm_num) (by rw [hm]; norm_num), hw,
      @round1_eval_gt (37740/1043) 361 (by norm_num) (by norm_num)]
    norm_num

/-- Claim C7: layers at or below the melt depth keep their prior value in a
`state_dynamics` call, and cells whose identifier is outside the event's
footprint keep their entire column through `update`. -/
theorem mixing_frame_property (dist : ℚ → ℚ → ℚ → ℚ → ℚ) (cfg : Config)
    (lons lats : List ℚ) (st : Store) (loc : ℚ × ℚ) (avg d : ℚ)
    (h0 : 0 ≤ cfg.fraction_upper_layer) (h1 : cfg.fraction_upper_layer ≤ 1) :
    (∀ (col : List ℚ) (i : ℕ), melt_layers cfg d ≤ i →
      (state_dynamics cfg avg d col)[i]? = col[i]?) ∧
    (∀ id : CellId,
      id ∉ (find_the_grid dist lons lats loc (crator_radius d)).map grid_cell_id →
      update dist cfg lons lats st loc d id = st id) := by
  have hbm := upperCount_le_melt_layers cfg d h0 h1
  refine ⟨fun col i him => state_dynamics_frame_getElem? cfg avg d col hbm i him, ?_⟩
  intro id hid
  rw [update_def]
  split_ifs with hc
  · exact loop_impact_grid_frame cfg _ d _ st id hid
  · rfl

/-- Witness for C7: layer 5 is untouched at diameter 30 (melt layers 5), and
a cell off the footprint keeps its column. -/
theorem mixing_frame_property_witness :
    (state_dynamics defaultConfig 45 30 (List.replicate 6 (45 : ℚ)))[5]? = some 45 ∧
    update (fun _ _ _ _ => 0) defaultConfig [0] [0]
        (state_prep defaultConfig [0] [0]) (0, 0) 30 (1, 1) =
      state_prep defaultConfig [0] [0] (1, 1) := by
  have hm : melt_layers defaultConfig 30 = 5 :=
    melt_layers_eval _ _ 5 (by rw [defaultConfig_prop, defaultConfig_zkm]; push_cast; norm_num)
  have h := mixing_frame_property (fun _ _ _ _ => 0) defaultConfig [0] [0]
    (state_prep defaultConfig [0] [0]) (0, 0) 45 30
    (by rw [defaultConfig_uf]; norm_num) (by rw [defaultConfig_uf]; norm_num)
  constructor
  · rw [h.1 (List.replicate 6 45) 5 (le_of_eq hm)]
    simp
  · refine h.2 (1, 1) ?_
    have hac : all_cells [(0 : ℚ)] [(0 : ℚ)] = [((0 : ℚ), (0 : ℚ))] := rfl
    have hfind : find_the_grid (fun _ _ _ _ => (0 : ℚ)) [0] [0] (0, 0) (crator_radius 30) =
        [((0 : ℚ), (0 : ℚ))] := by
      rw [find_the_grid_def, hac]
      have hself : (([((0 : ℚ), (0 : ℚ))]).filter
          (fun c => decide (distance_to (fun _ _ _ _ => (0 : ℚ)) (0, 0) c ≤ crator_radius 30))) =
          [((0 : ℚ), (0 : ℚ))] := by
        rw [List.filter_eq_self]
        intro a _
        rw [decide_eq_true_eq]
        unfold distance_to crator_radius
        norm_num
      rw [hself, if_neg (by norm_num)]
    rw [hfind]
    simp only [List.map_cons, List.map_nil, grid_cell_id, round4_zero]
    norm_num

/-! ### Zero-diameter impacts -/

theorem pyTrunc_zero : pyTrunc 0 = 0 := by
  rw [pyTrunc_of_nonneg le_rfl, Int.floor_zero]

theorem roundHalfEven_zero : roundHalfEven 0 = 0 := by
  rw [show (0 : ℚ) = ((0 : ℤ) : ℚ) by norm_num, roundHalfEven_intCast]

theorem melt_layers_zero (cfg : Config) : melt_layers cfg 0 = 0 := by
  unfold melt_layers
  rw [zero_mul, zero_div, pyTrunc_zero]
  rfl

theorem upperCount_zero (cfg : Config) : upperCount cfg 0 = 0 := by
  unfold upperCount
  rw [melt_layers_zero]
  rw [show ((0 : ℕ) : ℚ) = (0 : ℚ) by norm_num, mul_zero]
  unfold pyRound2
  rw [mul_zero, roundHalfEven_zero]
  rw [show (((0 : ℤ) : ℚ) / 100) = (0 : ℚ) by norm_num, pyTrunc_zero]
  rfl

theorem state_dynamics_zero (cfg : Config) (avg : ℚ) (col : List ℚ) :
    state_dynamics cfg avg 0 col = col := by
  rw [state_dynamics_eq, melt_layers_zero, upperCount_zero]
  rfl

theorem foldl_store_pointwise {α : Type} (step : Store → α → Store)
    (h : ∀ st a id, step st a id = st id) :
    ∀ (l : List α) (st : Store) (id : CellId), (l.foldl step st) id = st id := by
  intro l
  induction l with
  | nil => intro st id; rfl
  | cons a as ih => intro st id; rw [List.foldl_cons, ih, h]

/-- Claim C5: an impact with diameter 0 leaves every cell column of the store
unchanged, for every store, location and grid (the simulation time does not
enter the store update at all). -/
theorem zero_diameter_noop (dist : ℚ → ℚ → ℚ → ℚ → ℚ) (cfg : Config)
    (lons lats : List ℚ) (st : Store) (loc : ℚ × ℚ) (id : CellId) :
    update dist cfg lons lats st loc 0 id = st id := by
  rw [update_def]
  split_ifs with hc
  · refine foldl_store_pointwise _ ?_ _ st id
    intro st2 c id2
    unfold apply_state_dynamics
    split_ifs with he
    · subst he
      cases hsc : st2 (grid_cell_id c) <;> simp [hsc, state_dynamics_zero]
    · rfl
  · rfl

/-! ### Claim C2: the partition index -/

/-- Counterexample to claim C2 as stated: at impactor diameter 24 the code
splits the 4 disturbed layers at index `int(round(2/3 * 4, 2)) = 2`, while
nearest-integer rounding of `2/3 * 4 = 8/3` is `3`; observably, layer 2
receives the lower-range (mass-balance) value `36.2`, not the upper value
`49.4`. -/
theorem partition_index_not_nearest_round :
    upperCount defaultConfig 24 = 2 ∧
    round (defaultConfig.fraction_upper_layer * (melt_layers defaultConfig 24 : ℚ)) = 3 ∧
    (state_dynamics defaultConfig 45 24 (List.replicate 6 (45 : ℚ)))[2]? = some (181/5) := by
  have hm : melt_layers defaultConfig 24 = 4 :=
    melt_layers_eval _ _ 4 (by rw [defaultConfig_prop, defaultConfig_zkm]; push_cast; norm_num)
  have hb : upperCount defaultConfig 24 = 2 := by rw [upperCount_defaultConfig, hm]
  refine ⟨hb, ?_, ?_⟩
  · rw [defaultConfig_uf, hm, round_eq]
    push_cast
    norm_num
  · rw [state_dynamics_getElem? defaultConfig 45 24 (List.replicate 6 45)
      (by rw [hb, hm]; norm_num) (by rw [hb]; norm_num)
      (by rw [hm, List.length_replicate]; norm_num) 2,
      if_neg (by rw [hb]; norm_num), if_pos (by rw [hm]; norm_num)]
    have hwval : ((45 : ℚ) - defaultConfig.fraction_upper_layer *
        ((45 : ℚ) / (1 - defaultConfig.fractionation_factor))) /
        defaultConfig.fraction_lower_layer = 37740/1043 := by
      unfold Config.fractionation_factor Config.fraction_lower_layer
      rw [defaultConfig_uf, defaultConfig_target, defaultConfig_upper]
      norm_num
    rw [hwval, @round1_eval_gt (37740/1043) 361 (by norm_num) (by norm_num)]
    norm_num

/-- Claim C2 amended: with the default partition ratio `2/3`, the mixing
update splits the `melt_layers` disturbed layers at index
`int(round(2/3 * melt_layers, 2))`, which equals the floor
`⌊2 * melt_layers / 3⌋` for every impactor diameter — not the nearest
integer. -/
theorem partition_index_eq_floor (d : ℚ) :
    upperCount defaultConfig d = 2 * melt_layers defaultConfig d / 3 :=
  upperCount_defaultConfig d

/-! ### Claim C3: the target averager -/

theorem foldl_add_eq (f : (ℚ × ℚ) → ℚ) (l : List (ℚ × ℚ)) (x : ℚ) :
    l.foldl (fun a c => a + f c) x = x + (l.map f).sum := by
  induction l generalizing x with
  | nil => simp
  | cons c cs ih => rw [List.foldl_cons, ih, List.map_cons, List.sum_cons]; ring

theorem foldl_add_rat (l : List ℚ) : l.foldl (fun a x => a + x) 0 = l.sum :=
  List.sum_eq_foldl.symm

theorem take_sum_eq_range_sum (col : List ℚ) (z : ℕ) (h : z ≤ col.length) :
    (col.take z).sum = ((List.range z).map (fun i => col.getD i 0)).sum := by
  induction z with
  | zero => simp
  | succ z ih =>
    have hzl : z < col.length := by omega
    rw [List.sum_take_succ col z hzl, ih (by omega), List.range_succ, List.map_append,
      List.sum_append]
    simp [List.getD_eq_getElem?_getD, List.getElem?_eq_getElem hzl]

/-- The value of layer `i` of footprint cell `c` in the spec's description
of the Target Averager (claim C3): the stored column entry, or the primitive
composition for a cell absent from the store.  This definition follows the
claim's wording and is compared against `get_average_target`. -/
def spec_layer_value (cfg : Config) (st : Store) (c : ℚ × ℚ) (i : ℕ) : ℚ :=
  match st (grid_cell_id c) with
  | some col => col.getD i 0
  | none => cfg.primitive_initial_state

/-- The spec's arithmetic mean over all (cell, layer) pairs of the footprint
(claim C3). -/
def spec_pair_mean (cfg : Config) (st : Store) (z : ℕ) (cells : List (ℚ × ℚ)) : ℚ :=
  ((cells.map (fun c => ((List.range z).map (spec_layer_value cfg st c)).sum)).sum)
    / ((cells.length : ℚ) * (z : ℚ))

/-- Claim C3: for a non-empty footprint, `get_average_target` equals the
arithmetic mean over all (cell, layer) pairs of the top `z` layers of each
footprint cell as stored before any mixing (absent cells contributing the
primitive composition per layer), and the result is invariant under any
permutation of the footprint — in particular under the order in which the
cells are subsequently visited during mixing, since `update` computes it
from the pre-impact store. -/
theorem target_averager_mean_order_independent (cfg : Config) (st : Store) (z : ℕ)
    (cells cells2 : List (ℚ × ℚ))
    (_hne : cells ≠ []) (_hz : 0 < z)
    (hlen : ∀ c ∈ cells, ∀ col, st (grid_cell_id c) = some col → z ≤ col.length)
    (hperm : cells.Perm cells2) :
    get_average_target cfg st z cells = spec_pair_mean cfg st z cells ∧
    get_average_target cfg st z cells2 = get_average_target cfg st z cells := by
  constructor
  · unfold get_average_target spec_pair_mean
    rw [foldl_add_eq, zero_add]
    congr 1
    refine congrArg List.sum (List.map_congr_left ?_)
    intro c hc
    unfold cell_target_sum
    cases hsc : st (grid_cell_id c) with
    | some col =>
      show (col.take z).foldl (fun a x => a + x) 0 =
        (List.map (spec_layer_value cfg st c) (List.range z)).sum
      rw [foldl_add_rat, take_sum_eq_range_sum col z (hlen c hc col hsc)]
      refine congrArg List.sum (List.map_congr_left ?_)
      intro i _
      unfold spec_layer_value
      rw [hsc]
    | none =>
      show cfg.primitive_initial_state * (z : ℚ) =
        (List.map (spec_layer_value cfg st c) (List.range z)).sum
      have hv : ∀ i ∈ List.range z, spec_layer_value cfg st c i =
          cfg.primitive_initial_state := by
        intro i _
        unfold spec_layer_value
        rw [hsc]
      rw [List.map_congr_left hv, List.map_const', List.sum_replicate, List.length_range,
        nsmul_eq_mul]
      ring
  · have hsum := (hperm.map (cell_target_sum cfg st z)).sum_eq
    have hlen2 := hperm.length_eq
    unfold get_average_target
    rw [foldl_add_eq, foldl_add_eq, zero_add, zero_add, ← hsum, ← hlen2]

/-- Witness for C3: a two-cell footprint on a fresh two-cell grid, visited
in both orders. -/
theorem target_averager_witness :
    ([((0 : ℚ), (0 : ℚ)), ((1 : ℚ), (0 : ℚ))] : List (ℚ × ℚ)) ≠ [] ∧
    0 < 2 ∧
    get_average_target defaultConfig (state_prep defaultConfig [0, 1] [0]) 2
        [((1 : ℚ), (0 : ℚ)), ((0 : ℚ), (0 : ℚ))] =
      get_average_target defaultConfig (state_prep defaultConfig [0, 1] [0]) 2
        [((0 : ℚ), (0 : ℚ)), ((1 : ℚ), (0 : ℚ))] := by
  have htl : defaultConfig.total_layers = 165 :=
    total_layers_eval _ 165 (by rw [defaultConfig_maxd, defaultConfig_zkm]; push_cast; norm_num)
  have hv0 : state_prep defaultConfig [0, 1] [0] (grid_cell_id ((0 : ℚ), (0 : ℚ))) =
      some (List.replicate defaultConfig.total_layers
        defaultConfig.primitive_initial_state) := by
    simp only [state_prep]
    rw [if_pos ⟨⟨0, by norm_num, rfl⟩, ⟨0, by norm_num, rfl⟩⟩]
  have hv1 : state_prep defaultConfig [0, 1] [0] (grid_cell_id ((1 : ℚ), (0 : ℚ))) =
      some (List.replicate defaultConfig.total_layers
        defaultConfig.primitive_initial_state) := by
    simp only [state_prep]
    rw [if_pos ⟨⟨1, by norm_num, rfl⟩, ⟨0, by norm_num, rfl⟩⟩]
  have hlen : ∀ c ∈ ([((0 : ℚ), (0 : ℚ)), ((1 : ℚ), (0 : ℚ))] : List (ℚ × ℚ)),
      ∀ col : List ℚ,
      state_prep defaultConfig [0, 1] [0] (grid_cell_id c) = some col → 2 ≤ col.length := by
    intro c hc col hcol
    rcases List.mem_cons.mp hc with rfl | hc2
    · rw [hv0] at hcol
      injection hcol with hcol
      rw [← hcol, List.length_replicate, htl]
      norm_num
    · rcases List.mem_cons.mp hc2 with rfl | hc3
      · rw [hv1] at hcol
        injection hcol with hcol
        rw [← hcol, List.length_replicate, htl]
        norm_num
      · simp at hc3
  have h := target_averager_mean_order_independent defaultConfig
    (state_prep defaultConfig [0, 1] [0]) 2
    [((0 : ℚ), (0 : ℚ)), ((1 : ℚ), (0 : ℚ))] [((1 : ℚ), (0 : ℚ)), ((0 : ℚ), (0 : ℚ))]
    (by simp) (by norm_num) hlen (List.Perm.swap _ _ _)
  exact ⟨by simp, by norm_num, h.2⟩

/-! ### Claim C4: the impact locator -/

theorem d_min_foldl_le (dist : ℚ → ℚ → ℚ → ℚ → ℚ) (loc : ℚ × ℚ) :
    ∀ (cells : List (ℚ × ℚ)) (init : ℚ),
      (cells.foldl (fun dm c => if distance_to dist loc c < dm then distance_to dist loc c
        else dm) init) ≤ init ∧
      ∀ c ∈ cells, (cells.foldl (fun dm c => if distance_to dist loc c < dm then
        distance_to dist loc c else dm) init) ≤ distance_to dist loc c := by
  intro cells
  induction cells with
  | nil => intro init; exact ⟨le_refl _, by simp⟩
  | cons c cs ih =>
    intro init
    rw [List.foldl_cons]
    have hle : (if distance_to dist loc c < init then distance_to dist loc c else init)
        ≤ init := by
      split_ifs with h
      · exact le_of_lt h
      · exact le_refl _
    have hlec : (if distance_to dist loc c < init then distance_to dist loc c else init)
        ≤ distance_to dist loc c := by
      split_ifs with h
      · exact le_refl _
      · exact not_lt.mp h
    obtain ⟨ha, hb⟩ := ih (if distance_to dist loc c < init then distance_to dist loc c
      else init)
    refine ⟨le_trans ha hle, ?_⟩
    intro c2 hc2
    rcases List.mem_cons.mp hc2 with rfl | hmem
    · exact le_trans ha hlec
    · exact hb c2 hmem

theorem d_min_foldl_mem (dist : ℚ → ℚ → ℚ → ℚ → ℚ) (loc : ℚ × ℚ) :
    ∀ (cells : List (ℚ × ℚ)) (init : ℚ),
      (cells.foldl (fun dm c => if distance_to dist loc c < dm then distance_to dist loc c
        else dm) init) = init ∨
      ∃ c ∈ cells, (cells.foldl (fun dm c => if distance_to dist loc c < dm then
        distance_to dist loc c else dm) init) = distance_to dist loc c := by
  intro cells
  induction cells with
  | nil => intro init; exact Or.inl rfl
  | cons c cs ih =>
    intro init
    rw [List.foldl_cons]
    rcases ih (if distance_to dist loc c < init then distance_to dist loc c else init)
      with h | ⟨c2, hc2, h⟩
    · rw [h]
      split_ifs with hlt
      · exact Or.inr ⟨c, List.mem_cons_self c cs, rfl⟩
      · exact Or.inl rfl
    · exact Or.inr ⟨c2, List.mem_cons_of_mem c hc2, h⟩

theorem d_min_le (dist : ℚ → ℚ → ℚ → ℚ → ℚ) (loc : ℚ × ℚ) (cells : List (ℚ × ℚ)) :
    ∀ c ∈ cells, d_min dist loc cells ≤ distance_to dist loc c :=
  (d_min_foldl_le dist loc cells 10000000).2

theorem d_min_attained (dist : ℚ → ℚ → ℚ → ℚ → ℚ) (loc : ℚ × ℚ)
    (cells : List (ℚ × ℚ)) (h : d_min dist loc cells < 30) :
    ∃ c ∈ cells, distance_to dist loc c = d_min dist loc cells := by
  rcases d_min_foldl_mem dist loc cells 10000000 with h2 | ⟨c, hc, h2⟩
  · exfalso
    rw [show d_min dist loc cells = cells.foldl (fun dm c =>
      if distance_to dist loc c < dm then distance_to dist loc c else dm) 10000000 from rfl,
      h2] at h
    norm_num at h
  · exact ⟨c, hc, h2.symm⟩

/-- Claim C4: the footprint of `find_the_grid` is exactly the set of grid
cells within the crater radius; when that set is empty and the running
minimum distance is below 30 km, it is exactly the set of cells at the
minimum distance (which is attained and a lower bound of all distances);
when the minimum is not below 30 km the footprint is empty, and an `update`
whose footprint is empty leaves the store unchanged. -/
theorem impact_locator_footprint (dist : ℚ → ℚ → ℚ → ℚ → ℚ) (cfg : Config)
    (lons lats : List ℚ) (loc : ℚ × ℚ) (r : ℚ) (st : Store) (d : ℚ) :
    ((∃ c ∈ all_cells lons lats, distance_to dist loc c ≤ r) →
      ∀ c, c ∈ find_the_grid dist lons lats loc r ↔
        (c ∈ all_cells lons lats ∧ distance_to dist loc c ≤ r)) ∧
    ((∀ c ∈ all_cells lons lats, ¬ distance_to dist loc c ≤ r) →
      d_min dist loc (all_cells lons lats) < 30 →
      ((∀ c, c ∈ find_the_grid dist lons lats loc r ↔
          (c ∈ all_cells lons lats ∧
            distance_to dist loc c = d_min dist loc (all_cells lons lats))) ∧
        (∀ c ∈ all_cells lons lats,
          d_min dist loc (all_cells lons lats) ≤ distance_to dist loc c) ∧
        (∃ c ∈ all_cells lons lats,
          distance_to dist loc c = d_min dist loc (all_cells lons lats)))) ∧
    ((∀ c ∈ all_cells lons lats, ¬ distance_to dist loc c ≤ r) →
      ¬ d_min dist loc (all_cells lons lats) < 30 →
      find_the_grid dist lons lats loc r = []) ∧
    (find_the_grid dist lons lats loc (crator_radius d) = [] →
      ∀ id, update dist cfg lons lats st loc d id = st id) := by
  refine ⟨?_, ?_, ?_, ?_⟩
  · intro hex c
    rw [find_the_grid_def]
    have hne : ((all_cells lons lats).filter
        (fun c => decide (distance_to dist loc c ≤ r))) ≠ [] := by
      obtain ⟨c0, hc0, hd0⟩ := hex
      intro hnil
      rw [List.filter_eq_nil_iff] at hnil
      exact hnil c0 hc0 (by simpa using hd0)
    rw [if_neg (by rw [Nat.lt_one_iff, List.length_eq_zero]; exact hne)]
    simp [List.mem_filter]
  · intro hall hdm
    have hnil : ((all_cells lons lats).filter
        (fun c => decide (distance_to dist loc c ≤ r))) = [] := by
      rw [List.filter_eq_nil_iff]
      intro a ha
      simpa using hall a ha
    refine ⟨?_, d_min_le dist loc _, d_min_attained dist loc _ hdm⟩
    intro c
    rw [find_the_grid_def, hnil, if_pos (by norm_num), if_pos hdm]
    simp [List.mem_filter]
  · intro hall hdm
    have hnil : ((all_cells lons lats).filter
        (fun c => decide (distance_to dist loc c ≤ r))) = [] := by
      rw [List.filter_eq_nil_iff]
      intro a ha
      simpa using hall a ha
    rw [find_the_grid_def, hnil, if_pos (by norm_num), if_neg hdm]
  · intro hempty id
    rw [update_def, hempty]
    simp

/-- Witness for C4 at a two-cell grid: a constant distance of 20 km with a
1 km radius triggers the nearest-cell fallback onto both tied cells, and a
constant distance of 40 km leaves the footprint empty. -/
theorem impact_locator_footprint_witness :
    ((0 : ℚ), (0 : ℚ)) ∈ find_the_grid (fun _ _ _ _ => 20) [0, 1] [0] (0, 0) 1 ∧
    find_the_grid (fun _ _ _ _ => 40) [0, 1] [0] (0, 0) 1 = [] := by
  have hac : all_cells [(0 : ℚ), (1 : ℚ)] [(0 : ℚ)] =
      [((0 : ℚ), (0 : ℚ)), ((1 : ℚ), (0 : ℚ))] := rfl
  have hd20 : d_min (fun _ _ _ _ => (20 : ℚ)) (0, 0)
      (all_cells [(0 : ℚ), (1 : ℚ)] [(0 : ℚ)]) = 20 := by
    rw [hac]
    show (if (20 : ℚ) < 20 then (20 : ℚ) else
      (if (20 : ℚ) < 10000000 then (20 : ℚ) else 10000000)) = 20
    norm_num
  have hd40 : d_min (fun _ _ _ _ => (40 : ℚ)) (0, 0)
      (all_cells [(0 : ℚ), (1 : ℚ)] [(0 : ℚ)]) = 40 := by
    rw [hac]
    show (if (40 : ℚ) < 40 then (40 : ℚ) else
      (if (40 : ℚ) < 10000000 then (40 : ℚ) else 10000000)) = 40
    norm_num
  have h1 := impact_locator_footprint (fun _ _ _ _ => 20) defaultConfig [0, 1] [0]
    (0, 0) 1 (state_prep defaultConfig [0, 1] [0]) 0
  have h2 := impact_locator_footprint (fun _ _ _ _ => 40) defaultConfig [0, 1] [0]
    (0, 0) 1 (state_prep defaultConfig [0, 1] [0]) 0
  constructor
  · refine ((h1.2.1 ?_ ?_).1 ((0 : ℚ), (0 : ℚ))).mpr ⟨?_, ?_⟩
    · intro c _
      show ¬ (20 : ℚ) ≤ 1
      norm_num
    · rw [hd20]
      norm_num
    · rw [hac]
      simp
    · rw [hd20]
      rfl
  · refine h2.2.2.1 ?_ ?_
    · intro c _
      show ¬ (40 : ℚ) ≤ 1
      norm_num
    · rw [hd40]
      norm_num

/-! ### Claim C8: the column-length invariant -/

theorem apply_state_dynamics_length (cfg : Config) (avg d : ℚ) (st : Store)
    (id i : CellId) :
    ((apply_state_dynamics cfg avg d st id) i).map List.length = (st i).map List.length := by
  unfold apply_state_dynamics
  split_ifs with h
  · subst h
    cases hsc : st i <;> simp [hsc, state_dynamics_length]
  · rfl

theorem loop_impact_grid_length (cfg : Config) (avg d : ℚ) (cells : List (ℚ × ℚ)) :
    ∀ (st : Store) (id : CellId),
      ((loop_impact_grid cfg avg d st cells) id).map List.length =
        (st id).map List.length := by
  induction cells with
  | nil => intro st id; rfl
  | cons c cs ih =>
    intro st id
    show ((loop_impact_grid cfg avg d (apply_state_dynamics cfg avg d st (grid_cell_id c))
      cs) id).map List.length = (st id).map List.length
    rw [ih, apply_state_dynamics_length]

theorem update_length (dist : ℚ → ℚ → ℚ → ℚ → ℚ) (cfg : Config) (lons lats : List ℚ)
    (st : Store) (loc : ℚ × ℚ) (d : ℚ) (id : CellId) :
    ((update dist cfg lons lats st loc d) id).map List.length = (st id).map List.length := by
  rw [update_def]
  split_ifs with hc
  · exact loop_impact_grid_length cfg _ d _ st id
  · rfl

theorem run_impacts_length (dist : ℚ → ℚ → ℚ → ℚ → ℚ) (cfg : Config)
    (lons lats : List ℚ) (events : List ((ℚ × ℚ) × ℚ)) :
    ∀ (st : Store) (id : CellId),
      ((run_impacts dist cfg lons lats events st) id).map List.length =
        (st id).map List.length := by
  induction events with
  | nil => intro st id; rfl
  | cons e es ih =>
    intro st id
    show ((run_impacts dist cfg lons lats es (update dist cfg lons lats st e.1 e.2))
      id).map List.length = (st id).map List.length
    rw [ih, update_length]

/-- Claim C8: after initialization and any finite sequence of impact events,
every cell of the working grid keeps a column of the constant length
`total_layers` (no cell appears or disappears: the mapped length is `none`
exactly where initialization left no column), and `total_layers` equals
`⌊max_depth / layer_thickness⌋` whenever that ratio is non-negative. -/
theorem column_length_invariant (dist : ℚ → ℚ → ℚ → ℚ → ℚ) (cfg : Config)
    (lons lats : List ℚ) (events : List ((ℚ × ℚ) × ℚ)) (id : CellId) :
    ((run_impacts dist cfg lons lats events (state_prep cfg lons lats)) id).map List.length =
      ((state_prep cfg lons lats) id).map List.length ∧
    (∀ col, state_prep cfg lons lats id = some col → col.length = cfg.total_layers) ∧
    (0 ≤ cfg.max_depth_of_impact_melt / cfg.z_discretized_km →
      (cfg.total_layers : ℤ) = ⌊cfg.max_depth_of_impact_melt / cfg.z_discretized_km⌋) := by
  refine ⟨run_impacts_length dist cfg lons lats events _ id, ?_, ?_⟩
  · intro col hcol
    unfold state_prep at hcol
    split_ifs at hcol with h
    injection hcol with hcol
    rw [← hcol, List.length_replicate]
  · intro hnn
    unfold Config.total_layers
    rw [pyTrunc_of_nonneg hnn, Int.toNat_of_nonneg (Int.floor_nonneg.mpr hnn)]

/-- Witness for C8: one event on a one-cell grid keeps the 165-layer column
length, and `total_layers = ⌊330 / 2⌋`. -/
theorem column_length_invariant_witness :
    ((run_impacts (fun _ _ _ _ => 0) defaultConfig [0] [0] [((0, 0), 30)]
        (state_prep defaultConfig [0] [0])) (grid_cell_id (0, 0))).map List.length =
      some 165 ∧
    (defaultConfig.total_layers : ℤ) = ⌊(330 : ℚ) / 2⌋ := by
  have htl : defaultConfig.total_layers = 165 :=
    total_layers_eval _ 165 (by rw [defaultConfig_maxd, defaultConfig_zkm]; push_cast; norm_num)
  have h := column_length_invariant (fun _ _ _ _ => 0) defaultConfig [0] [0]
    [((0, 0), 30)] (grid_cell_id (0, 0))
  constructor
  · rw [h.1]
    have hv0 : state_prep defaultConfig [0] [0] (grid_cell_id ((0 : ℚ), (0 : ℚ))) =
        some (List.replicate defaultConfig.total_layers
          defaultConfig.primitive_initial_state) := by
      simp only [state_prep]
      rw [if_pos ⟨⟨0, by norm_num, rfl⟩, ⟨0, by norm_num, rfl⟩⟩]
    rw [hv0]
    show some ((List.replicate defaultConfig.total_layers
      defaultConfig.primitive_initial_state).length) = some 165
    rw [List.length_replicate, htl]
  · have h3 := h.2.2 (by rw [defaultConfig_maxd, defaultConfig_zkm]; norm_num)
    rw [h3, defaultConfig_maxd, defaultConfig_zkm]

/-! ### Claim C6: the degenerate configurations -/

/-- The configuration with `fraction_upper_layer = 1` (so
`fraction_lower_layer = 0`), with a shallow 6-layer column for concrete
evaluation. -/
def degenerateConfig : Config :=
  { defaultConfig with fraction_upper_layer := 1, max_depth_of_impact_melt := 12 }

/-- The configuration with `upper_SiO2 == target_SiO2`. -/
def equalRefConfig : Config := { defaultConfig with upper_SiO2 := 6258/100 }

theorem degenerateConfig_uf : degenerateConfig.fraction_upper_layer = 1 := rfl

theorem degenerateConfig_prim : degenerateConfig.primitive_initial_state = 45 := rfl

theorem degenerateConfig_maxd : degenerateConfig.max_depth_of_impact_melt = 12 := rfl

theorem degenerateConfig_zkm : degenerateConfig.z_discretized_km = 2 := rfl

theorem degenerateConfig_prop : degenerateConfig.proportion_melt_from_impact = 1/3 := rfl

theorem degenerateConfig_target : degenerateConfig.target_SiO2 = 6258/100 := rfl

theorem degenerateConfig_upper : degenerateConfig.upper_SiO2 = 6871/100 := rfl

theorem equalRefConfig_uf : equalRefConfig.fraction_upper_layer = 2/3 := rfl

theorem equalRefConfig_target : equalRefConfig.target_SiO2 = 6258/100 := rfl

theorem equalRefConfig_upper : equalRefConfig.upper_SiO2 = 6258/100 := rfl

theorem upperCount_two_thirds (cfg : Config) (d : ℚ)
    (h : cfg.fraction_upper_layer = 2/3) :
    upperCount cfg d = 2 * melt_layers cfg d / 3 := by
  unfold upperCount
  rw [h]
  exact trunc_round2_two_thirds (melt_layers cfg d)

/-- Counterexample to claim C6 as stated: neither degenerate configuration
raises an error.  With `fraction_upper_layer = 1` the lower range
`[melt_layers, melt_layers)` is empty, so the division by
`fraction_lower_layer = 0` is never executed and a full `update` writes an
ordinary finite column; with `upper_SiO2 == target_SiO2` the fractionation
factor is `0`, the divisor `1 - fractionation_factor` is `1`, and mixing a
fresh primitive column is the identity.  Construction performs no
validation, and no ill-defined value is produced at either configuration. -/
theorem degenerate_config_counterexample :
    degenerateConfig.fraction_lower_layer = 0 ∧
    update (fun _ _ _ _ => 0) degenerateConfig [0] [0]
        (state_prep degenerateConfig [0] [0]) (0, 0) 6 (grid_cell_id (0, 0)) =
      some ((247/5) :: List.replicate 5 (45 : ℚ)) ∧
    equalRefConfig.fractionation_factor = 0 ∧
    state_dynamics equalRefConfig 45 30 (List.replicate 6 (45 : ℚ)) =
      List.replicate 6 (45 : ℚ) := by
  have htl6 : degenerateConfig.total_layers = 6 :=
    total_layers_eval _ 6 (by rw [degenerateConfig_maxd, degenerateConfig_zkm]; push_cast; norm_num)
  have hm1 : melt_layers degenerateConfig 6 = 1 :=
    melt_layers_eval _ _ 1
      (by rw [degenerateConfig_prop, degenerateConfig_zkm]; push_cast; norm_num)
  have hb1 : upperCount degenerateConfig 6 = 1 := by
    rw [upperCount_of_uf_one _ _ degenerateConfig_uf, hm1]
  have hv0 : state_prep degenerateConfig [0] [0] (grid_cell_id ((0 : ℚ), (0 : ℚ))) =
      some (List.replicate 6 (45 : ℚ)) := by
    simp only [state_prep]
    rw [if_pos ⟨⟨0, by norm_num, rfl⟩, ⟨0, by norm_num, rfl⟩⟩, htl6, degenerateConfig_prim]
  have hfind : find_the_grid (fun _ _ _ _ => (0 : ℚ)) [0] [0] (0, 0) (crator_radius 6) =
      [((0 : ℚ), (0 : ℚ))] := by
    rw [find_the_grid_def, show all_cells [(0 : ℚ)] [(0 : ℚ)] = [((0 : ℚ), (0 : ℚ))] from rfl]
    have hself : (([((0 : ℚ), (0 : ℚ))]).filter
        (fun c => decide (distance_to (fun _ _ _ _ => (0 : ℚ)) (0, 0) c ≤ crator_radius 6))) =
        [((0 : ℚ), (0 : ℚ))] := by
      rw [List.filter_eq_self]
      intro a _
      rw [decide_eq_true_eq]
      unfold distance_to crator_radius
      norm_num
    rw [hself, if_neg (by norm_num)]
  have hz3 : z_layers degenerateConfig 6 = 3 :=
    z_layers_eval _ _ 3 (by rw [degenerateConfig_zkm]; push_cast; norm_num)
  have hcts : cell_target_sum degenerateConfig (state_prep degenerateConfig [0] [0]) 3
      ((0 : ℚ), (0 : ℚ)) = 135 := by
    unfold cell_target_sum
    rw [hv0]
    show (List.take 3 (List.replicate 6 (45 : ℚ))).foldl (fun a x => a + x) 0 = 135
    rw [foldl_add_rat, List.take_replicate, List.sum_replicate]
    norm_num
  have havg : get_average_target degenerateConfig (state_prep degenerateConfig [0] [0]) 3
      [((0 : ℚ), (0 : ℚ))] = 45 := by
    unfold get_average_target
    rw [List.foldl_cons, List.foldl_nil, zero_add, hcts]
    norm_num
  have hu : (45 : ℚ) / (1 - degenerateConfig.fractionation_factor) = 103065/2086 := by
    unfold Config.fractionation_factor
    rw [degenerateConfig_target, degenerateConfig_upper]
    norm_num
  have hcol : state_dynamics degenerateConfig 45 6 (List.replicate 6 (45 : ℚ)) =
      (247/5) :: List.replicate 5 (45 : ℚ) := by
    refine List.ext_getElem? ?_
    intro i
    by_cases h0 : i = 0
    · subst h0
      rw [state_dynamics_getElem? degenerateConfig 45 6 (List.replicate 6 45)
          (by rw [hb1, hm1]) (by rw [hb1]; norm_num)
          (by rw [hm1, List.length_replicate]; norm_num) 0]
      rw [if_pos (by rw [hb1]; norm_num), hu,
        @round1_eval_lt (103065/2086) 494 (by norm_num) (by norm_num),
        List.getElem?_cons_zero]
      norm_num
    · have h1i : 1 ≤ i := by omega
      rw [state_dynamics_frame_getElem? degenerateConfig 45 6 (List.replicate 6 45)
        (by rw [hb1, hm1]) i (by rw [hm1]; omega)]
      obtain ⟨j, rfl⟩ : ∃ j, i = j + 1 := ⟨i - 1, by omega⟩
      rw [List.getElem?_cons_succ, List.getElem?_replicate, List.getElem?_replicate]
      by_cases hj : j < 5
      · rw [if_pos hj, if_pos (by omega)]
      · rw [if_neg hj, if_neg (by omega)]
  have hff0 : equalRefConfig.fractionation_factor = 0 := by
    unfold Config.fractionation_factor
    rw [equalRefConfig_target, equalRefConfig_upper]
    norm_num
  refine ⟨by unfold Config.fraction_lower_layer; rw [degenerateConfig_uf]; norm_num,
    ?_, hff0, ?_⟩
  · rw [update_def, hfind, if_pos (by norm_num), hz3, havg]
    show apply_state_dynamics degenerateConfig 45 6 (state_prep degenerateConfig [0] [0])
      (grid_cell_id (0, 0)) (grid_cell_id (0, 0)) = some ((247/5) :: List.replicate 5 (45 : ℚ))
    unfold apply_state_dynamics
    rw [if_pos rfl, hv0, Option.map_some', hcol]
  · have hm5 : melt_layers equalRefConfig 30 = 5 :=
      melt_layers_eval _ _ 5 (by
        rw [show equalRefConfig.proportion_melt_from_impact = 1/3 from rfl,
          show equalRefConfig.z_discretized_km = 2 from rfl]
        push_cast
        norm_num)
    have hb3 : upperCount equalRefConfig 30 = 3 := by
      rw [upperCount_two_thirds _ _ equalRefConfig_uf, hm5]
    have hu1 : (45 : ℚ) / (1 - equalRefConfig.fractionation_factor) = 45 := by
      rw [hff0]
      norm_num
    have hw1 : ((45 : ℚ) - equalRefConfig.fraction_upper_layer *
        ((45 : ℚ) / (1 - equalRefConfig.fractionation_factor))) /
        equalRefConfig.fraction_lower_layer = 45 := by
      rw [hu1]
      unfold Config.fraction_lower_layer
      rw [equalRefConfig_uf]
      norm_num
    have h45 : round1 (45 : ℚ) = 45 := by
      rw [@round1_eval_lt 45 450 (by norm_num) (by norm_num)]
      norm_num
    refine List.ext_getElem? ?_
    intro i
    by_cases h5 : i < 5
    · rw [state_dynamics_getElem? equalRefConfig 45 30 (List.replicate 6 45)
        (by rw [hb3, hm5]; norm_num) (by rw [hb3]; norm_num)
        (by rw [hm5, List.length_replicate]; norm_num) i]
      by_cases h3 : i < 3
      · rw [if_pos (by rw [hb3]; exact h3), hu1, h45, List.getElem?_replicate,
          if_pos (by omega)]
      · rw [if_neg (by rw [hb3]; exact h3), if_pos (by rw [hm5]; exact h5), hw1, h45,
          List.getElem?_replicate, if_pos (by omega)]
    · rw [state_dynamics_frame_getElem? equalRefConfig 45 30 (List.replicate 6 45)
        (by rw [hb3, hm5]; norm_num) i (by rw [hm5]; omega)]

/-- Claim C6 amended: the two configurations the claim calls degenerate do
not in fact trigger a division by zero anywhere in the Layer Mixer, and the
code (which performs no validation) runs them to completion producing
ordinary values: with `fraction_upper_layer = 1` the lower range is empty
(`upperCount = melt_layers`) and every disturbed layer receives the rounded
upper value; with `upper_SiO2 = target_SiO2` (non-zero) the divisor
`1 - fractionation_factor` equals `1`. -/
theorem degenerate_config_no_division (cfg : Config) (avg d : ℚ) (col : List ℚ) :
    (cfg.fraction_upper_layer = 1 → upperCount cfg d = melt_layers cfg d) ∧
    (cfg.upper_SiO2 = cfg.target_SiO2 → cfg.upper_SiO2 ≠ 0 →
      1 - cfg.fractionation_factor = 1) ∧
    (cfg.fraction_upper_layer = 1 → 0 < melt_layers cfg d →
      melt_layers cfg d ≤ col.length →
      ∀ i, i < melt_layers cfg d →
        (state_dynamics cfg avg d col)[i]? =
          some (round1 (avg / (1 - cfg.fractionation_factor)))) := by
  refine ⟨fun h1 => upperCount_of_uf_one cfg d h1, ?_, ?_⟩
  · intro he hne
    unfold Config.fractionation_factor
    rw [← he, div_self hne]
    ring
  · intro h1 hm hml i hi
    have hbm := upperCount_of_uf_one cfg d h1
    have hb2 : 0 < upperCount cfg d := by rw [hbm]; exact hm
    rw [state_dynamics_getElem? cfg avg d col (le_of_eq hbm) hb2 hml i,
      if_pos (by rw [hbm]; exact hi)]

/-- Witness for the amended C6 at the degenerate configuration
`fraction_upper_layer = 1`, diameter 6. -/
theorem degenerate_config_no_division_witness :
    degenerateConfig.fraction_upper_layer = 1 ∧
    upperCount degenerateConfig 6 = melt_layers degenerateConfig 6 ∧
    (state_dynamics degenerateConfig 45 6 (List.replicate 6 (45 : ℚ)))[0]? =
      some (247/5) := by
  have hm1 : melt_layers degenerateConfig 6 = 1 :=
    melt_layers_eval _ _ 1
      (by rw [degenerateConfig_prop, degenerateConfig_zkm]; push_cast; norm_num)
  have h := degenerate_config_no_division degenerateConfig 45 6 (List.replicate 6 45)
  refine ⟨degenerateConfig_uf, h.1 degenerateConfig_uf, ?_⟩
  rw [h.2.2 degenerateConfig_uf (by rw [hm1]; norm_num)
    (by rw [hm1, List.length_replicate]; norm_num) 0 (by rw [hm1]; norm_num)]
  have hu : (45 : ℚ) / (1 - degenerateConfig.fractionation_factor) = 103065/2086 := by
    unfold Config.fractionation_factor
    rw [degenerateConfig_target, degenerateConfig_upper]
    norm_num
  rw [hu, @round1_eval_lt (103065/2086) 494 (by norm_num) (by norm_num)]
  norm_num

/-! ### Claim C9: the rebin function -/

theorem re_bin_loop_nil (t : ℚ) (smax : ℤ) : re_bin_loop t smax [] = none := rfl

theorem re_bin_loop_cons (t : ℚ) (smax s : ℤ) (rest : List ℤ) :
    re_bin_loop t smax (s :: rest) =
      if t ≤ (s : ℚ) then some s
      else if (smax : ℚ) ≤ t then some smax
      else re_bin_loop t smax rest := rfl

/-- Full characterisation of the scan loop of `re_bin_sio2` over the
consecutive bins `a, a+1, ..., a+n-1` with `s_max = a + n`. -/
theorem re_bin_loop_consec (n : ℕ) : ∀ (a : ℤ) (t : ℚ),
    re_bin_loop t (a + n) ((List.range n).map (fun k : ℕ => a + (k : ℤ))) =
      if n = 0 then none
      else if t ≤ (a : ℚ) then some a
      else if ((a : ℚ) + (n : ℚ)) ≤ t then some (a + n)
      else if t ≤ (a : ℚ) + (n : ℚ) - 1 then some ⌈t⌉
      else none := by
  induction n with
  | zero =>
    intro a t
    simp [re_bin_loop_nil]
  | succ n ih =>
    intro a t
    have hmap : (List.range (n + 1)).map (fun k : ℕ => a + (k : ℤ)) =
        a :: (List.range n).map (fun k : ℕ => (a + 1) + (k : ℤ)) := by
      rw [List.range_succ_eq_map, List.map_cons, List.map_map]
      congr 1
      · push_cast
        ring
      · refine List.map_congr_left ?_
        intro k _
        show a + ((Nat.succ k : ℕ) : ℤ) = (a + 1) + (k : ℤ)
        push_cast
        ring
    rw [hmap, re_bin_loop_cons,
      show a + ((n + 1 : ℕ) : ℤ) = (a + 1) + (n : ℤ) by push_cast; ring,
      ih (a + 1) t, if_neg (by omega : ¬ (n + 1 = 0))]
    clear ih hmap
    by_cases hn : n = 0
    · subst hn
      rw [if_pos rfl]
      split_ifs <;> first
        | rfl
        | (exfalso; push_cast at *; linarith)
    · have hn1 : (1 : ℚ) ≤ (n : ℚ) := by exact_mod_cast Nat.one_le_iff_ne_zero.mpr hn
      rw [if_neg hn]
      split_ifs <;> first
        | rfl
        | (exfalso; push_cast at *; linarith)
        | (simp only [Option.some.injEq]; push_cast; ring1)
        | (simp only [Option.some.injEq]; symm; rw [Int.ceil_eq_iff]; refine ⟨by push_cast at *; linarith, by push_cast at *; linarith⟩)

/-- Evaluation of `re_bin_sio2` at its default parameters: a value at most
99 gets the bin `max 1 ⌈value⌉`; a value at least 100 gets the bin 100; a
value strictly between 99 and 100 falls through the loop and gets `None`. -/
theorem re_bin_sio2_default (t : ℚ) :
    re_bin_sio2 t 1 100 1 =
      if t ≤ 99 then some (max 1 ⌈t⌉)
      else if 100 ≤ t then some 100
      else none := by
  have hrange : pyRangeZ 1 100 1 = (List.range 99).map (fun k : ℕ => (1 : ℤ) + (k : ℤ)) := by
    unfold pyRangeZ
    rw [show ((100 - 1 + 1 - 1 : ℤ) / 1).toNat = 99 by decide]
    refine List.map_congr_left ?_
    intro k _
    rw [one_mul]
  unfold re_bin_sio2
  rw [hrange, show (100 : ℤ) = 1 + ((99 : ℕ) : ℤ) by norm_num, re_bin_loop_consec 99 1 t,
    if_neg (by norm_num : ¬ (99 = 0))]
  by_cases h1 : t ≤ ((1 : ℤ) : ℚ)
  · rw [if_pos h1, if_pos (by push_cast at h1 ⊢; linarith : t ≤ (99 : ℚ))]
    have hc : ⌈t⌉ ≤ 1 := Int.ceil_le.mpr (by push_cast at h1 ⊢; linarith)
    rw [max_eq_left hc]
  · rw [if_neg h1]
    by_cases h2 : ((1 : ℤ) : ℚ) + ((99 : ℕ) : ℚ) ≤ t
    · rw [if_pos h2, if_neg (by push_cast at h2 ⊢; linarith : ¬ t ≤ (99 : ℚ)),
        if_pos (by push_cast at h2 ⊢; linarith : (100 : ℚ) ≤ t)]
    · rw [if_neg h2]
      by_cases h3 : t ≤ ((1 : ℤ) : ℚ) + ((99 : ℕ) : ℚ) - 1
      · rw [if_pos h3, if_pos (by push_cast at h3 ⊢; linarith : t ≤ (99 : ℚ))]
        have hge : 1 ≤ ⌈t⌉ := by
          have hle := Int.le_ceil t
          have h1q : (1 : ℚ) < t := by push_cast at h1; linarith [not_le.mp h1]
          exact_mod_cast le_trans (le_of_lt h1q) hle
        rw [max_eq_right hge]
      · rw [if_neg h3, if_neg (by push_cast at h3 ⊢; intro hcon; linarith : ¬ t ≤ (99 : ℚ)),
          if_neg (by push_cast at h2 ⊢; intro hcon; exact h2 (by linarith) : ¬ (100 : ℚ) ≤ t)]

/-- Counterexample to claim C9 as stated: the value 99.5 lies above every
scanned bin (the loop scans 1..99 only) and below `s_max = 100`, so the
Python loop falls through and returns `None` — not the smallest bin
`100 ≥ 99.5` that the claim promises. -/
theorem re_bin_gap_counterexample :
    re_bin_sio2 (199/2) 1 100 1 = none ∧
    (1 : ℚ) ≤ 199/2 ∧ (199/2 : ℚ) ≤ 100 := by
  refine ⟨?_, by norm_num, by norm_num⟩
  rw [re_bin_sio2_default, if_neg (by norm_num), if_neg (by norm_num)]

/-- Claim C9 amended: `re_bin_sio2(value, 1, 100, 1)` returns the smallest
bin `b ∈ [1, 99]` with `value ≤ b` (clamped below at 1, i.e. `max 1 ⌈value⌉`)
for `value ≤ 99`, returns 100 for `value ≥ 100`, and returns `None` (no bin
at all) for `99 < value < 100`; it is ceiling-with-clamping only away from
the gap `(99, 100)`. -/
theorem re_bin_characterization (t : ℚ) :
    re_bin_sio2 t 1 100 1 =
      if t ≤ 99 then some (max 1 ⌈t⌉)
      else if 100 ≤ t then some 100
      else none :=
  re_bin_sio2_default t

/-! ### Claim C10: sample statistics -/

/-- The configuration whose primitive composition 99.5 falls into the rebin
gap `(99, 100)`. -/
def highPrimitiveConfig : Config := { defaultConfig with primitive_initial_state := 199/2 }

theorem highPrimitiveConfig_prim : highPrimitiveConfig.primitive_initial_state = 199/2 := rfl

theorem highPrimitiveConfig_maxd : highPrimitiveConfig.max_depth_of_impact_melt = 330 := rfl

theorem highPrimitiveConfig_zkm : highPrimitiveConfig.z_discretized_km = 2 := rfl

/-- Claim C10 amended: whenever at least one grid cell's rebinned top-2-layer
average is defined (i.e. `bar_list` is non-empty), the values of the
sample-percent mapping sum to exactly 100. -/
theorem sample_percents_sum (st : Store) (lons lats : List ℚ)
    (hne : sample_bar_list st lons lats ≠ []) :
    ((do_sample_percents st lons lats).map Prod.snd).sum = 100 := by
  have hlen0 : (sample_bar_list st lons lats).length ≠ 0 := by
    intro h
    exact hne (List.length_eq_zero.mp h)
  have hlenq : ((sample_bar_list st lons lats).length : ℚ) ≠ 0 := by exact_mod_cast hlen0
  unfold do_sample_percents
  rw [List.map_map]
  have hfun : (Prod.snd ∘ fun u => (u, 100 * ((sample_bar_list st lons lats).count u : ℚ) /
      ((sample_bar_list st lons lats).length : ℚ))) =
      fun u => (100 / ((sample_bar_list st lons lats).length : ℚ)) *
        (((sample_bar_list st lons lats).count u : ℕ) : ℚ) := by
    funext u
    show 100 * ((sample_bar_list st lons lats).count u : ℚ) /
      ((sample_bar_list st lons lats).length : ℚ) = _
    ring
  rw [hfun, List.sum_map_mul_left]
  have hmap2 : ((sample_bar_list st lons lats).dedup.map
      (fun u => (((sample_bar_list st lons lats).count u : ℕ) : ℚ))) =
      (((sample_bar_list st lons lats).dedup.map
        (fun u => (sample_bar_list st lons lats).count u)).map (fun n : ℕ => (n : ℚ))) := by
    rw [List.map_map]
    rfl
  rw [hmap2, ← Nat.cast_list_sum]
  have hcnt : ((sample_bar_list st lons lats).dedup.map
      (fun u => (sample_bar_list st lons lats).count u)).sum =
      (sample_bar_list st lons lats).length := by
    exact List.sum_map_count_dedup_eq_length _
  rw [hcnt, div_mul_cancel₀ _ hlenq]

/-- Witness for the amended C10 on a fresh one-cell grid with the default
primitive composition 45: the bar list is `[45]` and the single percentage
is 100. -/
theorem sample_percents_sum_witness :
    sample_bar_list (state_prep defaultConfig [0] [0]) [0] [0] ≠ [] ∧
    ((do_sample_percents (state_prep defaultConfig [0] [0]) [0] [0]).map Prod.snd).sum =
      100 := by
  have htl : defaultConfig.total_layers = 165 :=
    total_layers_eval _ 165 (by rw [defaultConfig_maxd, defaultConfig_zkm]; push_cast; norm_num)
  have hv0 : state_prep defaultConfig [0] [0] (grid_cell_id ((0 : ℚ), (0 : ℚ))) =
      some (List.replicate 165 (45 : ℚ)) := by
    simp only [state_prep]
    rw [if_pos ⟨⟨0, by norm_num, rfl⟩, ⟨0, by norm_num, rfl⟩⟩, htl, defaultConfig_prim]
  have hmean : mean_top2 (List.replicate 165 (45 : ℚ)) = 45 := by
    unfold mean_top2
    rw [List.take_replicate, show ((2 : ℕ) ⊓ 165) = 2 by norm_num, foldl_add_rat,
      List.sum_replicate, List.length_replicate]
    norm_num
  have hre : re_bin_sio2 (45 : ℚ) 1 100 1 = some 45 := by
    rw [re_bin_sio2_default, if_pos (by norm_num)]
    rw [show ⌈(45 : ℚ)⌉ = 45 by norm_num, show max (1 : ℤ) 45 = 45 by norm_num]
  have hbar : sample_bar_list (state_prep defaultConfig [0] [0]) [0] [0] = [45] := by
    unfold sample_bar_list
    rw [show all_cells [(0 : ℚ)] [(0 : ℚ)] = [((0 : ℚ), (0 : ℚ))] from rfl,
      List.filterMap_cons, hv0]
    simp only [hmean, hre]
    rfl
  refine ⟨by rw [hbar]; simp, sample_percents_sum _ _ _ (by rw [hbar]; simp)⟩

/-- Counterexample to claim C10 as stated: on a one-cell grid whose column
holds the (well-defined, non-NaN) composition 99.5, every cell's top-2-layer
average is defined, yet its rebinned value is `None`, the bar list is empty,
the sample-percent mapping is empty, and its values sum to 0, not 100. -/
theorem sample_percents_empty_counterexample :
    (state_prep highPrimitiveConfig [0] [0] (grid_cell_id (0, 0))).map mean_top2 =
      some (199/2) ∧
    do_sample_percents (state_prep highPrimitiveConfig [0] [0]) [0] [0] = [] ∧
    ((do_sample_percents (state_prep highPrimitiveConfig [0] [0]) [0] [0]).map
      Prod.snd).sum = 0 := by
  have htl : highPrimitiveConfig.total_layers = 165 :=
    total_layers_eval _ 165
      (by rw [highPrimitiveConfig_maxd, highPrimitiveConfig_zkm]; push_cast; norm_num)
  have hv0 : state_prep highPrimitiveConfig [0] [0] (grid_cell_id ((0 : ℚ), (0 : ℚ))) =
      some (List.replicate 165 (199/2 : ℚ)) := by
    simp only [state_prep]
    rw [if_pos ⟨⟨0, by norm_num, rfl⟩, ⟨0, by norm_num, rfl⟩⟩, htl, highPrimitiveConfig_prim]
  have hmean : mean_top2 (List.replicate 165 (199/2 : ℚ)) = 199/2 := by
    unfold mean_top2
    rw [List.take_replicate, show ((2 : ℕ) ⊓ 165) = 2 by norm_num, foldl_add_rat,
      List.sum_replicate, List.length_replicate]
    norm_num
  have hre : re_bin_sio2 (199/2 : ℚ) 1 100 1 = none := by
    rw [re_bin_sio2_default, if_neg (by norm_num), if_neg (by norm_num)]
  have hbar : sample_bar_list (state_prep highPrimitiveConfig [0] [0]) [0] [0] = [] := by
    unfold sample_bar_list
    rw [show all_cells [(0 : ℚ)] [(0 : ℚ)] = [((0 : ℚ), (0 : ℚ))] from rfl,
      List.filterMap_cons, hv0]
    simp only [hmean, hre]
    rfl
  have hdsp : do_sample_percents (state_prep highPrimitiveConfig [0] [0]) [0] [0] = [] := by
    unfold do_sample_percents
    rw [hbar]
    rfl
  refine ⟨?_, hdsp, by rw [hdsp]; rfl⟩
  rw [hv0, Option.map_some', hmean]

end Impacts
